import Mathlib

/-
Verification of the retrieval-augmented question-answering core of the
pdf_research_qa repository (src/core/document_qa.py, src/core/pdf_processor.py,
src/core/ollama_client.py) against its natural-language specification.

Modelling conventions (shallow embedding):
* Python strings are modelled as `List Char`; Python list slicing
  `text[i : i + n]` becomes `(text.drop i).take n`.
* Embedding vectors are `List ℚ`.  The numeric values of embeddings never
  matter to the verified properties; floating point similarity
  (`sklearn.metrics.pairwise.cosine_similarity`) is modelled as an opaque
  pure function `cos_sim` supplied by the environment.
* The Ollama HTTP backend (network I/O in ollama_client.py) is modelled as an
  oracle: `get_embedding` returns `Option (List ℚ)` (the code returns the
  parsed vector on HTTP 200 and `None` otherwise), and `generate` returns a
  `GenResponse` record carrying the HTTP status, the parsed `response` field
  and the raw body text, from which `ollama_generate` builds the returned
  string exactly as `OllamaClient.generate` does.
* `extract_title` / `extract_authors` (pdf_processor.py) are pure text
  heuristics whose output values no verified property inspects; they are
  modelled as opaque pure functions of the text, supplied by the environment.
* Python exceptions are explicit: `split_text` returns
  `Except String (List (List Char))` (the `ValueError` that
  `range(0, n, 0)` raises), `load_document` returns the new state paired
  with `Option String` (the uncaught exception, if any), and
  `answer_question` returns `Except String (List Char) × DocumentQA`
  (`Except.error` models an uncaught `IndexError`; the returned state
  component records that the method never assigns to `self`).
* `np.argsort` is modelled as a stable ascending argsort: the indices
  `0 .. len-1` ordered by the lexicographic key (value, index).  NumPy's
  default sort is deterministic and agrees with the stable order on the
  small arrays exercised here.
-/

/-- Embedding vectors (Python `List[float]`, values modelled in ℚ). -/
abbrev Vec := List ℚ

/-- Result of the HTTP POST performed by `OllamaClient.generate`:
`status` is `response.status_code`, `response` the parsed
`response.json()["response"]` field, `text` the raw `response.text`. -/
structure GenResponse where
  status : Nat
  response : List Char
  text : List Char

/-- The external environment of the core: the Ollama backend oracles, the
similarity function (sklearn's floating-point `cosine_similarity`,
abstracted to an opaque pure function), and the pure metadata heuristics
`extract_title` / `extract_authors` from pdf_processor.py, whose outputs no
verified property inspects. -/
structure Env where
  get_embedding : List Char → Option Vec
  generate : List Char → List Char → GenResponse
  cos_sim : Vec → Vec → ℚ
  extract_title : List Char → List Char
  extract_authors : List Char → List Char

/-- The mutable state of a `DocumentQA` object (document_qa.py, `__init__`):
`chunks`, `embeddings`, `document_text`, `title`, `authors`.  The
`self.ollama` client is carried separately as the `Env`. -/
structure DocumentQA where
  chunks : List (List Char)
  embeddings : List Vec
  document_text : List Char
  title : List Char
  authors : List Char
deriving DecidableEq

/-- The freshly constructed state (`__init__`: empty lists and strings). -/
def initQA : DocumentQA := ⟨[], [], [], [], []⟩

/-- Python truthiness applied to an optional embedding: `if embedding:` /
`if not question_embedding:` treat both `None` and the empty list as falsy. -/
def truthyEmbedding (o : Option Vec) : Option Vec :=
  match o with
  | none => none
  | some e => if e.isEmpty then none else some e

/-- The `ValueError` message raised by Python's `range` on a zero step. -/
def valueErrMsg : String := "ValueError: range() arg 3 must not be zero"

/-- The `IndexError` raised by Python list indexing out of range. -/
def errIndex : String := "IndexError: list index out of range"

/-- `PDFProcessor.split_text` (pdf_processor.py, lines 23–30):
`for i in range(0, len(text), chunk_size - overlap): chunk = text[i:i+chunk_size];
if len(chunk) >= 100: chunks.append(chunk)`.
With `chunk_size = overlap` the step is zero and `range` raises `ValueError`;
with `chunk_size < overlap` the step is negative, so `range(0, len(text), step)`
is empty and the result is `[]`.  Otherwise the starts are
`0, step, 2*step, ...` while `< len(text)`, i.e. `ceil(len(text)/step)` of
them. -/
def split_text (text : List Char) (chunk_size : Nat) (overlap : Nat) :
    Except String (List (List Char)) :=
  if chunk_size = overlap then Except.error valueErrMsg
  else if chunk_size < overlap then Except.ok []
  else
    let step := chunk_size - overlap
    Except.ok (((List.range ((text.length + step - 1) / step)).map
        (fun k => (text.drop (k * step)).take chunk_size)).filter
        (fun c => decide (100 ≤ c.length)))

/-- The window start positions kept by `split_text`: multiples of
`chunk_size - overlap` below `len(text)` whose window
`text[s : s + chunk_size]` has length `min chunk_size (len(text) - s) ≥ 100`. -/
def keptStarts (L : Nat) (chunk_size : Nat) (overlap : Nat) : List Nat :=
  ((List.range ((L + (chunk_size - overlap) - 1) / (chunk_size - overlap))).map
      (fun k => k * (chunk_size - overlap))).filter
    (fun s => decide (100 ≤ min chunk_size (L - s)))

/-- `DocumentQA.load_document` (document_qa.py, lines 23–36).  Source defaults
are `chunk_size = 1000`, `overlap = 200`.  Assigns `document_text`, `title`
and `authors`, then `self.chunks = processor.split_text(...)` — if that raises,
the exception propagates with the first three fields already overwritten —
then rebuilds `self.embeddings` by appending, for each chunk in order, the
truthy embeddings only (`if embedding:`), which is exactly a `filterMap`. -/
def load_document (env : Env) (st : DocumentQA) (text : List Char)
    (chunk_size : Nat) (overlap : Nat) : DocumentQA × Option String :=
  let st1 : DocumentQA :=
    { st with document_text := text, title := env.extract_title text,
              authors := env.extract_authors text }
  match split_text text chunk_size overlap with
  | Except.error e => (st1, some e)
  | Except.ok cks =>
      ({ st1 with chunks := cks,
                  embeddings :=
                    cks.filterMap (fun c => truthyEmbedding (env.get_embedding c)) },
       none)

/-- The sequence of inputs on which `load_document` invokes
`self.ollama.get_embedding`: one call per chunk, in chunk order; none at all
when `split_text` raises or yields no chunks. -/
def load_embed_calls (text : List Char) (chunk_size : Nat) (overlap : Nat) :
    List (List Char) :=
  match split_text text chunk_size overlap with
  | Except.error _ => []
  | Except.ok cks => cks

/-- Lexicographic (value, index) order on positions of the similarity list:
the order realised by a stable ascending argsort. -/
def idxLe (sims : List ℚ) (i j : Nat) : Prop :=
  sims.getD i 0 < sims.getD j 0 ∨ (sims.getD i 0 = sims.getD j 0 ∧ i ≤ j)

instance (sims : List ℚ) : DecidableRel (idxLe sims) := fun i j => by
  unfold idxLe; infer_instance

instance (sims : List ℚ) : IsTotal Nat (idxLe sims) := ⟨by
  intro i j
  rcases lt_trichotomy (sims.getD i 0) (sims.getD j 0) with h | h | h
  · exact Or.inl (Or.inl h)
  · rcases Nat.le_total i j with hij | hij
    · exact Or.inl (Or.inr ⟨h, hij⟩)
    · exact Or.inr (Or.inr ⟨h.symm, hij⟩)
  · exact Or.inr (Or.inl h)⟩

instance (sims : List ℚ) : IsTrans Nat (idxLe sims) := ⟨by
  intro a b c hab hbc
  rcases hab with h1 | h1 <;> rcases hbc with h2 | h2
  · exact Or.inl (h1.trans h2)
  · exact Or.inl (lt_of_lt_of_le h1 (le_of_eq h2.1))
  · exact Or.inl (lt_of_le_of_lt (le_of_eq h1.1) h2)
  · exact Or.inr ⟨h1.1.trans h2.1, h1.2.trans h2.2⟩⟩

/-- `np.argsort(similarities)` modelled as the stable ascending argsort:
the indices `0 .. len-1` sorted by the lexicographic (value, index) key. -/
def argsortAsc (sims : List ℚ) : List Nat :=
  List.insertionSort (idxLe sims) (List.range sims.length)

/-- Python slice `l[-n:]` for a nonnegative `n`: the last `min n (len l)`
elements when `n ≥ 1`; the whole list when `n = 0` (since `l[-0:] = l[0:]`). -/
def pyNegSlice (n : Nat) (l : List α) : List α :=
  l.drop (if n = 0 then 0 else l.length - n)

/-- `np.argsort(similarities)[-n_chunks:][::-1]` (document_qa.py, line 55). -/
def topIndices (sims : List ℚ) (n_chunks : Nat) : List Nat :=
  (pyNegSlice n_chunks (argsortAsc sims)).reverse

/-- Python list indexing `[self.chunks[i] for i in top_indices]`:
`none` models the `IndexError` raised at the first out-of-range index. -/
def getChunks (chunks : List (List Char)) : List Nat → Option (List (List Char))
  | [] => some []
  | i :: is =>
      match chunks[i]? with
      | none => none
      | some c =>
          match getChunks chunks is with
          | none => none
          | some cs => some (c :: cs)

/-- Message returned when the question embedding is falsy (line 43). -/
def msgEmbedFail : List Char :=
  "Failed to generate embedding for the question".toList

/-- Message returned when the similarity list is empty (line 53). -/
def msgNoChunks : List Char :=
  "No document chunks available for answering".toList

/-- The fixed system prompt of `answer_question` (lines 61–64). -/
def system_prompt : List Char :=
  "You are a research assistant helping to answer questions based on the provided research paper.\nUse ONLY the information from the provided context to answer the question.\nIf the answer cannot be determined from the context, say so clearly. \nDo not make up information or rely on prior knowledge.".toList

/-- Leading part of the user prompt f-string (line 67). -/
def promptHead : List Char := "Context from research paper:\n".toList

/-- Middle part of the user prompt f-string (line 70). -/
def promptMid : List Char := "\n\nQuestion: ".toList

/-- Trailing part of the user prompt f-string (line 72). -/
def promptTail : List Char := "\n\nAnswer:".toList

/-- `OllamaClient.generate` (ollama_client.py, lines 16–36): on HTTP 200
return the parsed `response` field, otherwise the string
`f"Error: \x7bresponse.status_code\x7d\n\x7bresponse.text\x7d"`. -/
def ollama_generate (env : Env) (prompt : List Char) (sys : List Char) :
    List Char :=
  let r := env.generate prompt sys
  if r.status = 200 then r.response
  else ("Error: " ++ toString r.status ++ "\n").toList ++ r.text

/-- `DocumentQA.answer_question` (document_qa.py, lines 38–75).  Source
default is `n_chunks = 3`.  The second component of the result is the state
of `self` after the call: the method reads but never assigns `self`'s
fields, so it is the input state unchanged. -/
def answer_question (env : Env) (st : DocumentQA) (question : List Char)
    (n_chunks : Nat) : Except String (List Char) × DocumentQA :=
  match truthyEmbedding (env.get_embedding question) with
  | none => (Except.ok msgEmbedFail, st)
  | some question_embedding =>
      let similarities : List ℚ :=
        st.embeddings.map (fun emb => env.cos_sim question_embedding emb)
      if similarities.isEmpty then
        (Except.ok msgNoChunks, st)
      else
        match getChunks st.chunks (topIndices similarities n_chunks) with
        | none => (Except.error errIndex, st)
        | some top_chunks =>
            let context := List.intercalate ('\n' :: '\n' :: []) top_chunks
            let prompt :=
              promptHead ++ context ++ promptMid ++ question ++ promptTail
            (Except.ok (ollama_generate env prompt system_prompt), st)

/-! ### Helper lemmas about the retrieval pipeline -/

/-- The argsort output is a permutation of `0 .. len-1`. -/
lemma argsort_perm (sims : List ℚ) :
    List.Perm (argsortAsc sims) (List.range sims.length) :=
  List.perm_insertionSort _ _

/-- The argsort output has the length of its input. -/
lemma argsort_length (sims : List ℚ) :
    (argsortAsc sims).length = sims.length := by
  simp [argsortAsc, List.length_insertionSort]

/-- Every index produced by the argsort is a valid position of `sims`. -/
lemma mem_argsort_lt (sims : List ℚ) (i : Nat) (h : i ∈ argsortAsc sims) :
    i < sims.length :=
  List.mem_range.mp ((argsort_perm sims).mem_iff.mp h)

/-- Every index selected by `topIndices` is a valid position of `sims`. -/
lemma mem_topIndices_lt (sims : List ℚ) (n i : Nat)
    (h : i ∈ topIndices sims n) : i < sims.length := by
  have h1 : i ∈ pyNegSlice n (argsortAsc sims) := List.mem_reverse.mp h
  have h2 : i ∈ argsortAsc sims :=
    (List.drop_sublist _ _).subset h1
  exact mem_argsort_lt sims i h2

/-- When every requested index is in range, the chunk lookup succeeds. -/
lemma getChunks_isSome (chunks : List (List Char)) (idxs : List Nat)
    (h : ∀ i ∈ idxs, i < chunks.length) :
    ∃ cs, getChunks chunks idxs = some cs := by
  induction idxs with
  | nil => exact ⟨[], rfl⟩
  | cons i is ih =>
      have hi : i < chunks.length := h i (List.mem_cons_self i is)
      obtain ⟨cs, hcs⟩ := ih (fun j hj => h j (List.mem_cons_of_mem i hj))
      exact ⟨chunks[i] :: cs,
        by simp [getChunks, List.getElem?_eq_getElem hi, hcs]⟩

/-- `answer_question` never raises when the store satisfies
`len(embeddings) ≤ len(chunks)`: every exit is an ordinary string. -/
lemma answer_question_ok (env : Env) (st : DocumentQA)
    (hlen : st.embeddings.length ≤ st.chunks.length)
    (question : List Char) (n_chunks : Nat) :
    ∃ a, (answer_question env st question n_chunks).1 = Except.ok a := by
  unfold answer_question
  cases htr : truthyEmbedding (env.get_embedding question) with
  | none => exact ⟨msgEmbedFail, rfl⟩
  | some qe =>
      by_cases hemp :
        (st.embeddings.map (fun emb => env.cos_sim qe emb)).isEmpty
      · simp only [hemp]
        exact ⟨msgNoChunks, rfl⟩
      · obtain ⟨cs, hcs⟩ := getChunks_isSome st.chunks
          (topIndices (st.embeddings.map (fun emb => env.cos_sim qe emb)) n_chunks)
          (fun i hi => by
            have h1 := mem_topIndices_lt _ _ _ hi
            rw [List.length_map] at h1
            exact h1.trans_le hlen)
        simp only [hemp, hcs]
        exact ⟨_, rfl⟩

/-- The argsort is sorted for the lexicographic (value, index) order and has
no duplicate indices, hence it is strictly increasing for that order. -/
lemma argsort_pairwise (sims : List ℚ) :
    List.Pairwise
      (fun i j => sims.getD i 0 < sims.getD j 0 ∨
        (sims.getD i 0 = sims.getD j 0 ∧ i < j)) (argsortAsc sims) := by
  have hs : List.Sorted (idxLe sims) (argsortAsc sims) :=
    List.sorted_insertionSort _ _
  have hnd : (argsortAsc sims).Nodup :=
    ((argsort_perm sims).symm).nodup (List.nodup_range _)
  have hand := hs.and hnd
  refine hand.imp ?_
  rintro i j ⟨hle, hne⟩
  rcases hle with h | ⟨heq, hij⟩
  · exact Or.inl h
  · exact Or.inr ⟨heq, lt_of_le_of_ne hij hne⟩

/-- The selected index list is strictly decreasing for the lexicographic
(value, index) order: similarities descend, and equal similarities appear
with descending original index. -/
lemma topIndices_pairwise (sims : List ℚ) (n : Nat) :
    List.Pairwise
      (fun i j => sims.getD j 0 < sims.getD i 0 ∨
        (sims.getD i 0 = sims.getD j 0 ∧ j < i)) (topIndices sims n) := by
  have h1 := (argsort_pairwise sims).sublist (List.drop_sublist
    (if n = 0 then 0 else (argsortAsc sims).length - n) (argsortAsc sims))
  have h2 : List.Pairwise
      (fun i j => sims.getD i 0 < sims.getD j 0 ∨
        (sims.getD i 0 = sims.getD j 0 ∧ i < j))
      (pyNegSlice n (argsortAsc sims)) := h1
  refine List.pairwise_reverse.mpr ?_
  refine h2.imp ?_
  rintro i j h
  rcases h with h | ⟨heq, hij⟩
  · exact Or.inl h
  · exact Or.inr ⟨heq.symm, hij⟩

/-! ### Helper lemmas about the chunker -/

/-- For valid parameters, `split_text` emits exactly the windows whose start
positions are listed by `keptStarts`. -/
lemma split_text_eq_keptStarts (text : List Char) (cs ov : Nat) (h : ov < cs) :
    split_text text cs ov =
      Except.ok ((keptStarts text.length cs ov).map
        (fun s => (text.drop s).take cs)) := by
  have hne : cs ≠ ov := ne_of_gt h
  have hnlt : ¬ cs < ov := by omega
  unfold split_text keptStarts
  simp only [hne, hnlt, if_false]
  congr 1
  rw [List.filter_map, List.filter_map, List.map_map]
  have hfun : ((fun s => (text.drop s).take cs) ∘ fun k => k * (cs - ov)) =
      fun k => (text.drop (k * (cs - ov))).take cs := rfl
  rw [hfun]
  apply congrArg
  apply List.filter_congr
  intro k _
  simp [List.length_take, List.length_drop]

/-- A multiple of the step that stays `≤ L - 100` is a kept start. -/
lemma mem_keptStarts_intro (L cs ov k : Nat) (h : ov < cs) (hL : 100 ≤ L)
    (hk : k * (cs - ov) ≤ L - 100) (hcs : 100 ≤ cs) :
    k * (cs - ov) ∈ keptStarts L cs ov := by
  have hstep : 0 < cs - ov := by omega
  unfold keptStarts
  rw [List.mem_filter]
  constructor
  · refine List.mem_map.mpr ⟨k, List.mem_range.mpr ?_, rfl⟩
    have h1 : k * (cs - ov) ≤ L - 1 := by omega
    have h2 : k ≤ (L - 1) / (cs - ov) := (Nat.le_div_iff_mul_le hstep).mpr h1
    have h3 : (L + (cs - ov) - 1) / (cs - ov) = (L - 1) / (cs - ov) + 1 := by
      have h4 : L + (cs - ov) - 1 = (L - 1) + (cs - ov) := by omega
      rw [h4, Nat.add_div_right _ hstep]
    omega
  · simp only [decide_eq_true_eq]
    have h5 : 100 ≤ L - k * (cs - ov) := by omega
    exact le_min hcs h5

/-- Kept starts carry windows of length ≥ 100. -/
lemma mem_keptStarts_min (L cs ov s : Nat) (hs : s ∈ keptStarts L cs ov) :
    100 ≤ min cs (L - s) := by
  unfold keptStarts at hs
  rw [List.mem_filter] at hs
  simpa using hs.2

/-- No start is kept when the text is shorter than 100 characters. -/
lemma keptStarts_nil (L cs ov : Nat) (hL : L < 100) :
    keptStarts L cs ov = [] := by
  unfold keptStarts
  rw [List.filter_eq_nil_iff]
  intro a _
  simp only [decide_eq_true_eq]
  have h := Nat.min_le_right cs (L - a)
  omega

/-- Coverage: with `chunk_size ≥ 100` and `overlap ≥ 99`, every position of a
text of length ≥ 100 lies inside some kept window. -/
lemma keptStarts_cover (L cs ov p : Nat) (h1 : 100 ≤ cs) (h2 : 99 ≤ ov)
    (h3 : ov < cs) (hL : 100 ≤ L) (hp : p < L) :
    ∃ s ∈ keptStarts L cs ov, s ≤ p ∧ p < s + cs := by
  have hstep : 0 < cs - ov := by omega
  have ep : (cs - ov) * (p / (cs - ov)) + p % (cs - ov) = p :=
    Nat.div_add_mod p (cs - ov)
  have epr : p % (cs - ov) < cs - ov := Nat.mod_lt _ hstep
  have eqq : (cs - ov) * ((L - 100) / (cs - ov)) + (L - 100) % (cs - ov)
      = L - 100 := Nat.div_add_mod _ _
  have eqr : (L - 100) % (cs - ov) < cs - ov := Nat.mod_lt _ hstep
  have hmc1 : (p / (cs - ov)) * (cs - ov) = (cs - ov) * (p / (cs - ov)) :=
    Nat.mul_comm _ _
  have hmc2 : ((L - 100) / (cs - ov)) * (cs - ov)
      = (cs - ov) * ((L - 100) / (cs - ov)) := Nat.mul_comm _ _
  by_cases hcase : (p / (cs - ov)) * (cs - ov) ≤ L - 100
  · refine ⟨(p / (cs - ov)) * (cs - ov),
      mem_keptStarts_intro L cs ov _ h3 hL hcase h1, ?_, ?_⟩
    · omega
    · omega
  · refine ⟨((L - 100) / (cs - ov)) * (cs - ov),
      mem_keptStarts_intro L cs ov _ h3 hL (by omega) h1, ?_, ?_⟩
    · -- the last kept start lies at or before `p`
      have hlt : (L - 100) / (cs - ov) < p / (cs - ov) := by
        by_contra hcon
        push_neg at hcon
        have h6 := Nat.mul_le_mul_left (cs - ov) hcon
        omega
      have h7 := Nat.mul_le_mul_right (cs - ov) (Nat.succ_le_of_lt hlt)
      have h8 : ((L - 100) / (cs - ov) + 1) * (cs - ov)
          = ((L - 100) / (cs - ov)) * (cs - ov) + (cs - ov) :=
        Nat.succ_mul _ _
      omega
    · omega

/-! ### Decidability of result comparisons -/

instance {α β : Type} [DecidableEq α] [DecidableEq β] :
    DecidableEq (Except α β) := fun a b =>
  match a, b with
  | Except.error x, Except.error y =>
      if h : x = y then isTrue (by rw [h])
      else isFalse (fun hh => h (by injection hh))
  | Except.error _, Except.ok _ => isFalse (fun hh => Except.noConfusion hh)
  | Except.ok _, Except.error _ => isFalse (fun hh => Except.noConfusion hh)
  | Except.ok x, Except.ok y =>
      if h : x = y then isTrue (by rw [h])
      else isFalse (fun hh => h (by injection hh))

/-! ### Concrete environments and states used as witnesses -/

/-- A backend whose `embed` always succeeds with the vector `[1]` and whose
`generate` always succeeds with body "ok". -/
def envAllOk : Env :=
  ⟨fun _ => some [1], fun _ _ => ⟨200, "ok".toList, "".toList⟩,
   fun _ _ => 0, fun _ => [], fun _ => []⟩

/-- A backend whose `embed` fails (returns `None`) exactly on texts starting
with the character 'a'. -/
def envFailA : Env :=
  ⟨fun c => if c.head? = some 'a' then none else some [1],
   fun _ _ => ⟨200, "ok".toList, "".toList⟩,
   fun _ _ => 0, fun _ => [], fun _ => []⟩

/-- A backend whose `embed` always fails (returns `None`). -/
def envNoEmbed : Env :=
  ⟨fun _ => none, fun _ _ => ⟨200, "ok".toList, "".toList⟩,
   fun _ _ => 0, fun _ => [], fun _ => []⟩

/-- A backend whose `generate` always fails with HTTP 500. -/
def envGenFail : Env :=
  ⟨fun _ => some [1], fun _ _ => ⟨500, "".toList, "Internal Server Error".toList⟩,
   fun _ _ => 0, fun _ => [], fun _ => []⟩

/-- A session holding one chunk with its embedding. -/
def stOne : DocumentQA := ⟨[List.replicate 100 'a'], [[1]], [], [], []⟩

/-- A session holding three chunks with three embeddings. -/
def stThree : DocumentQA :=
  ⟨[['a'], ['b'], ['c']], [[1], [2], [3]], [], [], []⟩

/-- A 200-character text whose first `split_text 100 0` chunk consists of
'a's and whose second consists of 'b's. -/
def textAB : List Char := List.replicate 100 'a' ++ List.replicate 100 'b'

/-! ### Claim C1 -/

set_option maxRecDepth 8000 in
/-- Claim C1 (code_bug evidence): at a load where the embedding of the first
of two chunks fails, the code keeps both chunks (`self.chunks` is assigned
the full `split_text` result and never pruned) but stores only one
embedding, so `len(chunks) = 2 ≠ 1 = len(embeddings)`: the failed chunk is
NOT removed from the chunks sequence in lockstep, contradicting the claimed
invariant `len(chunks) == len(embeddings)`.  The code's own retrieval then
indexes `self.chunks` with positions drawn from the embeddings sequence, so
the stated 1:1 correspondence is what the rest of the code relies on. -/
theorem C1_lockstep_divergence :
    (load_document envFailA initQA textAB 100 0).2 = none ∧
    (load_document envFailA initQA textAB 100 0).1.chunks =
      [List.replicate 100 'a', List.replicate 100 'b'] ∧
    (load_document envFailA initQA textAB 100 0).1.embeddings = [[1]] ∧
    (load_document envFailA initQA textAB 100 0).1.chunks.length ≠
      (load_document envFailA initQA textAB 100 0).1.embeddings.length := by
  refine ⟨rfl, by decide, by decide, by decide⟩

/-! ### Claim C2 -/

/-- Claim C2 (counterexample): at the spec's own scenario
`chunkSize = 500, overlap = 600`, `load` does NOT fail: it completes with no
exception (second component `none`), silently storing zero chunks and zero
embeddings and attempting no embedding call.  No ConfigurationError exists
anywhere in the code. -/
theorem C2_counterexample :
    (load_document envAllOk initQA (List.replicate 1000 'a') 500 600).2 = none ∧
    (load_document envAllOk initQA (List.replicate 1000 'a') 500 600).1.chunks = [] ∧
    (load_document envAllOk initQA (List.replicate 1000 'a') 500 600).1.embeddings = [] ∧
    load_embed_calls (List.replicate 1000 'a') 500 600 = [] := by
  refine ⟨rfl, by decide, by decide, by decide⟩

/-- Claim C2 (amended): for `overlap > chunkSize` the Python `range` step is
negative, so `split_text` returns no windows and `load` completes silently
with empty `chunks` and `embeddings`, attempting no embedding call — there
is no ConfigurationError and no hang; for `overlap = chunkSize` load raises
the underlying `ValueError` from `range` (before any embedding call), not a
descriptive configuration error. -/
theorem C2_amended (env : Env) (st : DocumentQA) (text : List Char)
    (cs ov : Nat) (h : cs ≤ ov) :
    (cs < ov →
      load_document env st text cs ov =
        ({ chunks := [], embeddings := [], document_text := text,
           title := env.extract_title text,
           authors := env.extract_authors text }, none) ∧
      load_embed_calls text cs ov = []) ∧
    (cs = ov →
      (load_document env st text cs ov).2 = some valueErrMsg ∧
      load_embed_calls text cs ov = []) := by
  constructor
  · intro h'
    have hsp : split_text text cs ov = Except.ok [] := by
      unfold split_text
      rw [if_neg (by omega), if_pos h']
    constructor
    · unfold load_document
      rw [hsp]
      rfl
    · unfold load_embed_calls
      rw [hsp]
  · intro h'
    have hsp : split_text text cs ov = Except.error valueErrMsg := by
      unfold split_text
      rw [if_pos h']
    refine ⟨?_, ?_⟩
    · unfold load_document
      rw [hsp]
    · unfold load_embed_calls
      rw [hsp]

/-- Witness for C2_amended at the spec's scenario input. -/
theorem C2_amended_witness :
    load_document envAllOk initQA (List.replicate 1000 'a') 500 600 =
      ({ chunks := [], embeddings := [],
         document_text := List.replicate 1000 'a',
         title := envAllOk.extract_title (List.replicate 1000 'a'),
         authors := envAllOk.extract_authors (List.replicate 1000 'a') }, none) ∧
    load_embed_calls (List.replicate 1000 'a') 500 600 = [] :=
  (C2_amended envAllOk initQA (List.replicate 1000 'a') 500 600
    (by decide)).1 (by decide)

/-! ### Claim C3 -/

set_option maxRecDepth 8000 in
/-- Claim C3 (counterexample): with the valid pair `chunkSize = 100`,
`overlap = 0` and a text of 150 'a's (length ≥ 100, so not the claimed
exception), `split_text` emits exactly one chunk, the window starting at 0;
position 149 lies in no kept window, so it is not covered by any emitted
chunk — the sub-100-character tail `text[100:150]` is discarded. -/
theorem C3_counterexample :
    (0 : Nat) < 100 ∧
    (List.replicate 150 'a').length = 150 ∧
    (100 : Nat) ≤ 150 ∧
    split_text (List.replicate 150 'a') 100 0 =
      Except.ok [List.replicate 100 'a'] ∧
    split_text (List.replicate 150 'a') 100 0 =
      Except.ok ((keptStarts 150 100 0).map
        (fun s => ((List.replicate 150 'a').drop s).take 100)) ∧
    (∀ s ∈ keptStarts 150 100 0, ¬ (s ≤ 149 ∧ 149 < s + 100)) := by
  refine ⟨by decide, by decide, by decide, by decide, by decide, by decide⟩

/-- Claim C3 (amended): chunks are the windows at the `keptStarts` positions
and each has length ≥ 100; input shorter than 100 characters yields zero
chunks; and full positional coverage holds under the additional hypothesis
`overlap ≥ 99` (together with `chunkSize ≥ 100`) — without it, a trailing
window shorter than 100 characters can be discarded leaving its positions
uncovered by any emitted chunk. -/
theorem C3_amended (text : List Char) (cs ov : Nat) (h1 : 100 ≤ cs)
    (h2 : 99 ≤ ov) (h3 : ov < cs) :
    split_text text cs ov =
      Except.ok ((keptStarts text.length cs ov).map
        (fun s => (text.drop s).take cs)) ∧
    (∀ c ∈ (keptStarts text.length cs ov).map
        (fun s => (text.drop s).take cs), 100 ≤ c.length) ∧
    (text.length < 100 → split_text text cs ov = Except.ok []) ∧
    (100 ≤ text.length → ∀ p < text.length,
      ∃ s ∈ keptStarts text.length cs ov, s ≤ p ∧ p < s + cs) := by
  refine ⟨split_text_eq_keptStarts text cs ov h3, ?_, ?_, ?_⟩
  · intro c hc
    obtain ⟨s, hs, rfl⟩ := List.mem_map.mp hc
    have hmin := mem_keptStarts_min _ _ _ _ hs
    have hlen : ((text.drop s).take cs).length = min cs (text.length - s) := by
      simp [List.length_take, List.length_drop]
    rw [hlen]
    exact hmin
  · intro hL
    rw [split_text_eq_keptStarts text cs ov h3, keptStarts_nil _ _ _ hL]
    rfl
  · intro hL p hp
    exact keptStarts_cover text.length cs ov p h1 h2 h3 hL hp

set_option maxRecDepth 8000 in
/-- Witness for C3_amended at `chunkSize = 100`, `overlap = 99`, a text of
150 characters; position 149 is covered by a kept window. -/
theorem C3_amended_witness :
    split_text (List.replicate 150 'a') 100 99 =
      Except.ok ((keptStarts (List.replicate 150 'a').length 100 99).map
        (fun s => ((List.replicate 150 'a').drop s).take 100)) ∧
    (∃ s ∈ keptStarts (List.replicate 150 'a').length 100 99,
      s ≤ 149 ∧ 149 < s + 100) :=
  ⟨(C3_amended (List.replicate 150 'a') 100 99 (by decide) (by decide)
      (by decide)).1,
   (C3_amended (List.replicate 150 'a') 100 99 (by decide) (by decide)
      (by decide)).2.2.2 (by decide) 149 (by decide)⟩

/-! ### Claim C4 -/

/-- The ordering the claim states: similarity descending, ties at equal
similarity resolved by ascending original index. -/
def tieAscOrder (sims : List ℚ) (l : List Nat) : Prop :=
  List.Pairwise (fun i j => sims.getD j 0 < sims.getD i 0 ∨
    (sims.getD i 0 = sims.getD j 0 ∧ i < j)) l

/-- The ordering the code realises: similarity descending, ties at equal
similarity resolved by DESCENDING original index (the ascending stable
argsort is reversed by `[::-1]`, flipping tie order). -/
def tieDescOrder (sims : List ℚ) (l : List Nat) : Prop :=
  List.Pairwise (fun i j => sims.getD j 0 < sims.getD i 0 ∨
    (sims.getD i 0 = sims.getD j 0 ∧ j < i)) l

/-- Claim C4 (counterexample): with two chunks of equal similarity, the
selected order is `[1, 0]` — descending original index — not the claimed
ascending tie order `[0, 1]`. -/
theorem C4_counterexample :
    ([(1 : ℚ), 1].getD 0 0 = [(1 : ℚ), 1].getD 1 0) ∧
    topIndices [(1 : ℚ), 1] 3 = [1, 0] ∧
    ¬ tieAscOrder [(1 : ℚ), 1] (topIndices [(1 : ℚ), 1] 3) := by
  refine ⟨by decide, by decide, by unfold tieAscOrder; decide⟩

/-- Claim C4 (amended): retrieval is deterministic — `topIndices` (and hence
`answer_question`) is a pure function of the similarity list and `n_chunks`,
so repeated calls on fixed inputs return the same ordered result — and the
selected indices are ordered by descending similarity with ties at equal
similarity resolved by DESCENDING (not ascending) original chunk index. -/
theorem C4_amended (sims : List ℚ) (n : Nat) :
    tieDescOrder sims (topIndices sims n) :=
  topIndices_pairwise sims n

/-! ### Claim C5 -/

/-- Claim C5: the retrieval selects exactly `min k (len embeddings)` chunk
indices: the similarity list has one entry per stored embedding, and the
slice `[-k:]` of the argsort keeps `min k (len)` of them, all reversed. -/
theorem C5_topk_bound (env : Env) (qe : Vec) (st : DocumentQA) (n : Nat)
    (h : 1 ≤ n) :
    (topIndices (st.embeddings.map (fun emb => env.cos_sim qe emb)) n).length
      = min n st.embeddings.length := by
  have hn : n ≠ 0 := by omega
  simp only [topIndices, pyNegSlice, hn, if_false, List.length_reverse,
    List.length_drop, argsort_length, List.length_map]
  omega

/-- Witness for C5_topk_bound: three embeddings, `k = 2`. -/
theorem C5_witness :
    (topIndices (stThree.embeddings.map
        (fun emb => envAllOk.cos_sim [1] emb)) 2).length
      = min 2 stThree.embeddings.length :=
  C5_topk_bound envAllOk [1] stThree 2 (by decide)

/-! ### Claim C6 -/

/-- Claim C6 (counterexample): in the claim's own scenario — a backend whose
every `embed` call returns null — the store is empty, yet `ask` returns the
question-embedding-failure message, not the "no content available"
message (the question's own embedding fails before the empty store is
consulted).  No exception is raised. -/
theorem C6_counterexample :
    initQA.embeddings = [] ∧
    (answer_question envNoEmbed initQA ("anything".toList) 3).1 =
      Except.ok msgEmbedFail ∧
    (answer_question envNoEmbed initQA ("anything".toList) 3).1 ≠
      Except.ok msgNoChunks := by
  refine ⟨rfl, rfl, by decide⟩

/-- Claim C6 (amended): with an empty embedding store, `ask` never raises —
it always returns an ordinary string: the "no content available" message
`msgNoChunks` whenever the question embedding succeeds (is truthy), and the
question-embedding-failure message when the question embedding is null or
empty. -/
theorem C6_amended (env : Env) (st : DocumentQA) (q : List Char) (n : Nat)
    (h : st.embeddings = []) :
    (∃ a, (answer_question env st q n).1 = Except.ok a) ∧
    (∀ qe, truthyEmbedding (env.get_embedding q) = some qe →
      (answer_question env st q n).1 = Except.ok msgNoChunks) ∧
    (truthyEmbedding (env.get_embedding q) = none →
      (answer_question env st q n).1 = Except.ok msgEmbedFail) := by
  refine ⟨?_, ?_, ?_⟩
  · exact answer_question_ok env st (by rw [h]; exact Nat.zero_le _) q n
  · intro qe hqe
    unfold answer_question
    rw [hqe, h]
    rfl
  · intro hq
    unfold answer_question
    rw [hq]

/-- Witness for C6_amended: empty store, a backend that embeds the question
successfully; the result is the no-content message. -/
theorem C6_amended_witness :
    (answer_question envAllOk initQA ("q".toList) 3).1 =
      Except.ok msgNoChunks :=
  (C6_amended envAllOk initQA ("q".toList) 3 rfl).2.1 [1] rfl

/-! ### Claim C7 -/

/-- Claim C7: when the generation backend's HTTP response has a non-success
status, `ask` returns the client's error string — the marker "Error: ", the
status, a newline, then the backend's response text verbatim — as an
ordinary string result (`Except.ok`), never as a raised exception. -/
theorem C7_backend_error_passthrough (env : Env) (st : DocumentQA)
    (q : List Char) (n : Nat) (qe : Vec) (r : GenResponse)
    (hq : truthyEmbedding (env.get_embedding q) = some qe)
    (hne : st.embeddings ≠ [])
    (hlen : st.embeddings.length ≤ st.chunks.length)
    (hgen : ∀ p s, env.generate p s = r)
    (hstatus : r.status ≠ 200) :
    (answer_question env st q n).1 =
      Except.ok (("Error: " ++ toString r.status ++ "\n").toList ++ r.text) := by
  have hemp : (st.embeddings.map (fun emb => env.cos_sim qe emb)).isEmpty
      = false := by
    cases hst : st.embeddings with
    | nil => exact absurd hst hne
    | cons e es => simp
  obtain ⟨cs, hcs⟩ := getChunks_isSome st.chunks
    (topIndices (st.embeddings.map (fun emb => env.cos_sim qe emb)) n)
    (fun i hi => by
      have h1 := mem_topIndices_lt _ _ _ hi
      rw [List.length_map] at h1
      exact h1.trans_le hlen)
  unfold answer_question
  rw [hq]
  simp only [hemp, Bool.false_eq_true, if_false, hcs]
  unfold ollama_generate
  rw [hgen, if_neg hstatus]

/-- Witness for C7: a one-chunk session and a backend failing with HTTP 500;
`ask` returns "Error: 500\n" followed by the backend body. -/
theorem C7_witness :
    (answer_question envGenFail stOne ("q".toList) 3).1 =
      Except.ok (("Error: " ++ toString (500 : Nat) ++ "\n").toList ++
        "Internal Server Error".toList) :=
  C7_backend_error_passthrough envGenFail stOne ("q".toList) 3 [1]
    ⟨500, "".toList, "Internal Server Error".toList⟩
    rfl (by decide) (by decide) (fun _ _ => rfl) (by decide)

/-! ### Claim C8 -/

/-- Claim C8: `load_document` is idempotent — a second load of the same text
with the same (deterministic) environment produces exactly the same session
state (`chunks`, `embeddings`, `document_text`, `title`, `authors`) and the
same outcome, because every field written is a function of the text and the
environment alone (full replace, no dependence on prior state). -/
theorem C8_idempotent_reload (env : Env) (st : DocumentQA) (text : List Char)
    (cs ov : Nat) :
    load_document env (load_document env st text cs ov).1 text cs ov =
      load_document env st text cs ov := by
  unfold load_document
  cases h : split_text text cs ov <;> rfl

/-! ### Claim C9 -/

/-- Claim C9: `answer_question` is read-only with respect to the session
state: the state after `ask` (the second component, recording that the
method never assigns `self`'s fields) equals the state before, on every
control path — question-embedding failure, empty store, index error and
successful generation alike. -/
theorem C9_ask_readonly (env : Env) (st : DocumentQA) (q : List Char)
    (n : Nat) :
    (answer_question env st q n).2 = st := by
  unfold answer_question
  cases truthyEmbedding (env.get_embedding q) with
  | none => rfl
  | some qe =>
      cases hemp : (st.embeddings.map (fun emb => env.cos_sim qe emb)).isEmpty
      · simp only [hemp, Bool.false_eq_true, if_false]
        cases hgc : getChunks st.chunks
            (topIndices (st.embeddings.map (fun emb => env.cos_sim qe emb)) n)
        · rfl
        · rfl
      · simp only [hemp, if_true]

/-! ### Claim C10 -/

/-- Claim C10: after any `load_document` that completes without an
exception, `len(embeddings) ≤ len(chunks)` (the embeddings are a
`filterMap` of the chunks), every index the retrieval can select is a
position of the similarity list and hence in range for `self.chunks`, and
`answer_question` on the loaded state never raises an `IndexError` — every
exit is an ordinary string. -/
theorem C10_index_safety (env : Env) (st : DocumentQA) (text : List Char)
    (cs ov : Nat) (h : (load_document env st text cs ov).2 = none) :
    ((load_document env st text cs ov).1.embeddings.length ≤
      (load_document env st text cs ov).1.chunks.length) ∧
    (∀ qe n i, i ∈ topIndices
        ((load_document env st text cs ov).1.embeddings.map
          (fun emb => env.cos_sim qe emb)) n →
      i < (load_document env st text cs ov).1.chunks.length) ∧
    (∀ q n, ∃ a,
      (answer_question env (load_document env st text cs ov).1 q n).1 =
        Except.ok a) := by
  have hlen : (load_document env st text cs ov).1.embeddings.length ≤
      (load_document env st text cs ov).1.chunks.length := by
    cases hs : split_text text cs ov with
    | error e =>
        exfalso
        unfold load_document at h
        rw [hs] at h
        simp at h
    | ok cks =>
        unfold load_document
        rw [hs]
        exact List.length_filterMap_le _ _
  refine ⟨hlen, ?_, ?_⟩
  · intro qe n i hi
    have h1 := mem_topIndices_lt _ _ _ hi
    rw [List.length_map] at h1
    exact h1.trans_le hlen
  · intro q n
    exact answer_question_ok env _ hlen q n

set_option maxRecDepth 8000 in
/-- Witness for C10 on a completed load of a 150-character text. -/
theorem C10_witness :
    ∃ a, (answer_question envAllOk
        (load_document envAllOk initQA (List.replicate 150 'a') 1000 200).1
        ("q".toList) 3).1 = Except.ok a :=
  (C10_index_safety envAllOk initQA (List.replicate 150 'a') 1000 200
    rfl).2.2 ("q".toList) 3
